import Mathlib

/-!
Verification of the WAVE accessibility-audit repository's result-normalization
and report-generation pipeline.

The development shallowly embeds, from the source:
  * the in-page result enhancer `enhanceResultsWithDOMInfo` (src/analyzer.js
    lines 164-254, identically src/wave-test.ts lines 217-307), including the
    `JSON.parse(JSON.stringify(results))` deep copy, the per-rule XPath
    deduplication via `[...new Set(xpaths)]`, the DOM lookups of
    `getElementInfo`, the positional-array truncation, the per-category count
    recomputation and the error/contrast category filter;
  * the CSV field escaper `escapeCSV` (src/wave-test.ts lines 101-115);
  * the output-filename derivation `generateFilename` (src/wave-test.ts
    lines 86-99);
  * the polling initializer `checkWaveAvailability` (src/wave-test.ts lines
    314-407, the analyzer.js variant at lines 258-291 shares the exhaustion
    branch);
  * the batch orchestrator `_processUrlWithRetry` / `_createBatchSummary`
    (src/analyzer.js lines 427-493).

The live browser DOM is modelled as an oracle `String → DomLookup` describing,
for each XPath, whether `document.evaluate` throws, finds no node, or finds an
element; everything downstream of that oracle is translated directly from the
source.
-/

/-- JS object property read on an insertion-ordered association list:
`obj[k]`, `none` when the key is absent. -/
def jsGet {α : Type} (l : List (String × α)) (k : String) : Option α :=
  (l.find? (fun kv => kv.1 == k)).map (fun kv => kv.2)

/-- `[...new Set(xs)]` (src/analyzer.js line 215, src/wave-test.ts line 268):
the distinct elements of `xs` in first-occurrence (JS `Set` insertion) order.
-/
def jsSetDedupAux : Nat → List String → List String
  | _, [] => []
  | 0, _ :: _ => []
  | fuel + 1, x :: xs => x :: jsSetDedupAux fuel (xs.filter (fun y => y != x))

/-- `jsSetDedup xs` runs the recursion with fuel `xs.length`, which always
suffices (`jsSetDedupAux_irrel`); the fuel keeps the recursion structural so
the function evaluates by kernel reduction, and `jsSetDedup_cons` recovers
the natural recursion equation. -/
def jsSetDedup (xs : List String) : List String := jsSetDedupAux xs.length xs

/-- Index of the first occurrence of `a` in `xs` (the length of `xs` when
`a` is absent); used to state the first-occurrence-order property of
`jsSetDedup`. -/
def firstIdx (xs : List String) (a : String) : Nat :=
  match xs with
  | [] => 0
  | x :: r => if x = a then 0 else firstIdx r a + 1

/-! ## DOM model

`document.evaluate(xpath, …).singleNodeValue` inside the browser is modelled
as an oracle `String → DomLookup`: for a given XPath the evaluation either
throws, resolves no node, or resolves an element. -/

/-- A live DOM element as read by `getElementInfo` (src/analyzer.js lines
170-181).  JS falsiness of `element.id` / `element.className` /
`element.textContent` / `element.innerHTML` is the empty string. -/
structure DomElement where
  tagName : String
  id : String
  className : String
  textContent : String
  innerHTML : String
  attributes : List (String × String)
deriving DecidableEq

/-- Outcome of one XPath evaluation against the live document. -/
inductive DomLookup where
  | throws (msg : String)
  | absent
  | found (e : DomElement)
deriving DecidableEq

/-- Info record captured for a successfully resolved element. -/
structure ElementInfo where
  tagName : String
  id : Option String
  className : Option String
  textContent : Option String
  innerHTML : Option String
  attributes : List (String × String)
  selector : String
deriving DecidableEq

/-- One entry of the `domInfo` array: either a captured info record or the
error marker object `\x7b error: message \x7d`. -/
inductive DomInfoEntry where
  | info (e : ElementInfo)
  | error (msg : String)
deriving DecidableEq

/-- `generateSelector` (src/analyzer.js lines 187-194): id-based selector if
the element has an id, else the first two class tokens, else the lowercase
tag name.  `className.trim().split(/\s+/)` is modelled as splitting on
whitespace and dropping empty fragments. -/
def generateSelector (e : DomElement) : String :=
  if e.id ≠ "" then ("#") ++ e.id
  else if e.className ≠ "" then
    (".") ++ String.intercalate (".")
      (((e.className.trim.split Char.isWhitespace).filter (fun s => s ≠ "")).take 2)
  else e.tagName.toLower

/-- The record built from a resolved element (src/analyzer.js lines 170-181):
`substring(0, 100)` / `substring(0, 200)` truncations, `|| null` falsiness on
id/className, and the derived selector. -/
def buildElementInfo (e : DomElement) : ElementInfo :=
  { tagName := e.tagName
  , id := if e.id = "" then none else some e.id
  , className := if e.className = "" then none else some e.className
  , textContent := if e.textContent = "" then none else some (e.textContent.trim.take 100)
  , innerHTML := if e.innerHTML = "" then none else some (e.innerHTML.take 200)
  , attributes := e.attributes
  , selector := generateSelector e }

/-- `getElementInfo` (src/analyzer.js lines 165-185): `null` when no element
resolves, an `\x7b error \x7d` marker when evaluation throws, else the captured
info record. -/
def getElementInfo (dom : String → DomLookup) (xpath : String) : Option DomInfoEntry :=
  match dom xpath with
  | DomLookup.throws msg => some (DomInfoEntry.error msg)
  | DomLookup.absent => none
  | DomLookup.found e => some (DomInfoEntry.info (buildElementInfo e))

/-! ## Violation data model

Mirrors the TS interfaces `WaveRuleData` / `WaveCategory` (src/wave-test.ts
lines 19-33) and the duck-typed JS shape.  Optional (possibly absent)
properties are `Option`; JS objects are insertion-ordered association lists.
The `selectors` entries are `string | boolean` and `text` / `contrastdata`
entries are untyped, so those array elements are modelled by a small JS value
type `JAux`. -/

/-- An element of one of the loosely typed auxiliary arrays (`selectors`,
`text`, `contrastdata`). -/
inductive JAux where
  | str (s : String)
  | bool (b : Bool)
  | arr (l : List String)
deriving DecidableEq

/-- One rule group (`item` in the source). -/
structure WaveRuleData where
  count : Nat
  xpaths : Option (List String)
  selectors : Option (List JAux)
  text : Option (List JAux)
  hidden : Option (List Bool)
  contrastdata : Option (List JAux)
  domInfo : Option (List DomInfoEntry)
  description : Option String
deriving DecidableEq

/-- One violation category (`error` / `contrast` / anything else the raw tool
emits). -/
structure WaveCategory where
  count : Nat
  items : Option (List (String × WaveRuleData))
deriving DecidableEq

/-- A JSON value, used for the `JSON.parse(JSON.stringify(…))` deep copy and
for the opaque `statistics` payload that the enhancer passes through. -/
inductive JVal where
  | null
  | bool (b : Bool)
  | num (n : Int)
  | str (s : String)
  | arr (elems : List JVal)
  | obj (fields : List (String × JVal))

/-- The raw analysis result handed to `enhanceResultsWithDOMInfo`: a
`categories` map (absent when the tool produced none) plus the opaque
`statistics` payload which the enhancer leaves untouched. -/
structure WaveResults where
  categories : Option (List (String × WaveCategory))
  statistics : Option JVal

/-! ## JSON encoding and the deep copy

`const enhanced = JSON.parse(JSON.stringify(results))` (src/analyzer.js line
196, src/wave-test.ts line 249).  Optional properties are encoded as `null`
(an omitted property and a `null` property read back as the same falsy value
in every consumer in the source); the one field whose value ranges over all
of `JVal` — the opaque `statistics` payload — is encoded as an omitted
property to keep the encoding faithful. -/

def optStrToJson : Option String → JVal
  | none => JVal.null
  | some s => JVal.str s

def jvalToOptStr : JVal → Option String
  | JVal.str s => some s
  | _ => none

def jvalToStr : JVal → String
  | JVal.str s => s
  | _ => ""

def jvalToBool : JVal → Bool
  | JVal.bool b => b
  | _ => false

def jvalToNat : JVal → Nat
  | JVal.num n => n.toNat
  | _ => 0

def elementInfoToJson (e : ElementInfo) : JVal :=
  JVal.obj [(("tagName" : String), JVal.str e.tagName),
    (("id" : String), optStrToJson e.id),
    (("className" : String), optStrToJson e.className),
    (("textContent" : String), optStrToJson e.textContent),
    (("innerHTML" : String), optStrToJson e.innerHTML),
    (("attributes" : String), JVal.obj (e.attributes.map (fun kv => (kv.1, JVal.str kv.2)))),
    (("selector" : String), JVal.str e.selector)]

def elementInfoOfJson (j : JVal) : ElementInfo :=
  match j with
  | JVal.obj fields =>
    { tagName := jvalToStr ((jsGet fields ("tagName")).getD JVal.null)
    , id := jvalToOptStr ((jsGet fields ("id")).getD JVal.null)
    , className := jvalToOptStr ((jsGet fields ("className")).getD JVal.null)
    , textContent := jvalToOptStr ((jsGet fields ("textContent")).getD JVal.null)
    , innerHTML := jvalToOptStr ((jsGet fields ("innerHTML")).getD JVal.null)
    , attributes := match jsGet fields ("attributes") with
        | some (JVal.obj l) => l.map (fun kv => (kv.1, jvalToStr kv.2))
        | _ => []
    , selector := jvalToStr ((jsGet fields ("selector")).getD JVal.null) }
  | _ => { tagName := "", id := none, className := none, textContent := none
         , innerHTML := none, attributes := [], selector := "" }

def domInfoEntryToJson : DomInfoEntry → JVal
  | DomInfoEntry.info e => elementInfoToJson e
  | DomInfoEntry.error msg => JVal.obj [(("error" : String), JVal.str msg)]

def domInfoEntryOfJson (j : JVal) : DomInfoEntry :=
  match j with
  | JVal.obj fields =>
    match jsGet fields ("error") with
    | some (JVal.str msg) => DomInfoEntry.error msg
    | _ => DomInfoEntry.info (elementInfoOfJson (JVal.obj fields))
  | _ => DomInfoEntry.error ""

def jauxToJson : JAux → JVal
  | JAux.str s => JVal.str s
  | JAux.bool b => JVal.bool b
  | JAux.arr l => JVal.arr (l.map JVal.str)

def jauxOfJson : JVal → JAux
  | JVal.str s => JAux.str s
  | JVal.bool b => JAux.bool b
  | JVal.arr l => JAux.arr (l.map jvalToStr)
  | _ => JAux.str ""

def optListToJson {α : Type} (enc : α → JVal) : Option (List α) → JVal
  | none => JVal.null
  | some l => JVal.arr (l.map enc)

def jvalToOptList {α : Type} (dec : JVal → α) : JVal → Option (List α)
  | JVal.arr l => some (l.map dec)
  | _ => none

def waveRuleDataToJson (r : WaveRuleData) : JVal :=
  JVal.obj [(("count" : String), JVal.num r.count),
    (("xpaths" : String), optListToJson JVal.str r.xpaths),
    (("selectors" : String), optListToJson jauxToJson r.selectors),
    (("text" : String), optListToJson jauxToJson r.text),
    (("hidden" : String), optListToJson JVal.bool r.hidden),
    (("contrastdata" : String), optListToJson jauxToJson r.contrastdata),
    (("domInfo" : String), optListToJson domInfoEntryToJson r.domInfo),
    (("description" : String), optStrToJson r.description)]

def waveRuleDataOfJson (j : JVal) : WaveRuleData :=
  match j with
  | JVal.obj fields =>
    { count := jvalToNat ((jsGet fields ("count")).getD JVal.null)
    , xpaths := jvalToOptList jvalToStr ((jsGet fields ("xpaths")).getD JVal.null)
    , selectors := jvalToOptList jauxOfJson ((jsGet fields ("selectors")).getD JVal.null)
    , text := jvalToOptList jauxOfJson ((jsGet fields ("text")).getD JVal.null)
    , hidden := jvalToOptList jvalToBool ((jsGet fields ("hidden")).getD JVal.null)
    , contrastdata := jvalToOptList jauxOfJson ((jsGet fields ("contrastdata")).getD JVal.null)
    , domInfo := jvalToOptList domInfoEntryOfJson ((jsGet fields ("domInfo")).getD JVal.null)
    , description := jvalToOptStr ((jsGet fields ("description")).getD JVal.null) }
  | _ => { count := 0, xpaths := none, selectors := none, text := none
         , hidden := none, contrastdata := none, domInfo := none, description := none }

def waveCategoryToJson (c : WaveCategory) : JVal :=
  JVal.obj [(("count" : String), JVal.num c.count),
    (("items" : String), match c.items with
      | some items => JVal.obj (items.map (fun kv => (kv.1, waveRuleDataToJson kv.2)))
      | none => JVal.null)]

def waveCategoryOfJson (j : JVal) : WaveCategory :=
  match j with
  | JVal.obj fields =>
    { count := jvalToNat ((jsGet fields ("count")).getD JVal.null)
    , items := match jsGet fields ("items") with
        | some (JVal.obj l) => some (l.map (fun kv => (kv.1, waveRuleDataOfJson kv.2)))
        | _ => none }
  | _ => { count := 0, items := none }

def resultsToJson (r : WaveResults) : JVal :=
  JVal.obj (
    [(("categories" : String), match r.categories with
      | some cats => JVal.obj (cats.map (fun kv => (kv.1, waveCategoryToJson kv.2)))
      | none => JVal.null)] ++
    (match r.statistics with
     | some j => [(("statistics" : String), j)]
     | none => []))

def resultsOfJson (j : JVal) : WaveResults :=
  match j with
  | JVal.obj fields =>
    { categories := match jsGet fields ("categories") with
        | some (JVal.obj l) => some (l.map (fun kv => (kv.1, waveCategoryOfJson kv.2)))
        | _ => none
    , statistics := jsGet fields ("statistics") }
  | _ => { categories := none, statistics := none }

/-- The deep copy `JSON.parse(JSON.stringify(results))`. -/
def deepCopyResults (r : WaveResults) : WaveResults :=
  resultsOfJson (resultsToJson r)

/-! ## The in-page result enhancer

`enhanceResultsWithDOMInfo` (src/analyzer.js lines 164-254, src/wave-test.ts
lines 217-307). -/

/-- Per-rule enhancement (src/analyzer.js lines 212-237): guarded by
`item.xpaths && Array.isArray(item.xpaths)`; deduplicates the XPath list,
sets `count` to the deduplicated length, maps `getElementInfo` over the
unique XPaths and filters out the `null` results, and truncates each present
auxiliary array with `slice(0, uniqueXPaths.length)`. -/
def enhanceItem (dom : String → DomLookup) (item : WaveRuleData) : WaveRuleData :=
  match item.xpaths with
  | some xs =>
    let uniqueXPaths := jsSetDedup xs
    { item with
      xpaths := some uniqueXPaths
      count := uniqueXPaths.length
      domInfo := some ((uniqueXPaths.map (getElementInfo dom)).filterMap id)
      selectors := item.selectors.map (fun l => l.take uniqueXPaths.length)
      text := item.text.map (fun l => l.take uniqueXPaths.length)
      hidden := item.hidden.map (fun l => l.take uniqueXPaths.length)
      contrastdata := item.contrastdata.map (fun l => l.take uniqueXPaths.length) }
  | none => item

/-- Per-category enhancement: the first `forEach` pass (src/analyzer.js lines
208-240) enhances every item, the second pass (lines 242-249) recomputes
`category.count` as the sum of the items' counts; both passes are guarded by
`if (category.items)`. -/
def enhanceCategory (dom : String → DomLookup) (cat : WaveCategory) : WaveCategory :=
  match cat.items with
  | some items =>
    let items2 := items.map (fun kv => (kv.1, enhanceItem dom kv.2))
    { count := (items2.map (fun kv => kv.2.count)).sum, items := some items2 }
  | none => cat

/-- The category filter (src/analyzer.js lines 198-205): keep `error` then
`contrast`, in that insertion order, each only when present on the raw
`categories` object; everything else is dropped. -/
def filteredCategories (results : WaveResults) : List (String × WaveCategory) :=
  let cats := results.categories.getD []
  (match jsGet cats ("error") with
   | some c => [(("error" : String), c)]
   | none => []) ++
  (match jsGet cats ("contrast") with
   | some c => [(("contrast" : String), c)]
   | none => [])

/-- The body of the enhancer after the deep copy: filter the categories,
enhance each retained one, and overwrite `enhanced.categories` with the
filtered map (src/analyzer.js lines 198-253). -/
def enhanceCore (dom : String → DomLookup) (enhanced : WaveResults) : WaveResults :=
  { enhanced with
    categories := some ((filteredCategories enhanced).map (fun kv => (kv.1, enhanceCategory dom kv.2))) }

/-- `enhanceResultsWithDOMInfo` (src/analyzer.js lines 164-254): deep-copy the
raw results, then run the enhancement passes on the copy. -/
def enhanceResultsWithDOMInfo (dom : String → DomLookup) (results : WaveResults) : WaveResults :=
  enhanceCore dom (deepCopyResults results)

/-! ## CSV escaping and filename derivation (src/wave-test.ts) -/

/-- Whether a field contains a double quote, comma, or newline
(src/wave-test.ts lines 107-111). -/
def hasSpecialCSV (s : String) : Bool :=
  s.data.contains '"' || s.data.contains ',' || s.data.contains '\n'

/-- `stringField.replace(/"/g, '""')`: every double quote doubled. -/
def doubleQuotes (s : String) : String :=
  String.mk (s.data.flatMap (fun c => if c = '"' then ['"', '"'] else [c]))

/-- `escapeCSV` (src/wave-test.ts lines 101-115).  A `null` or `undefined`
field is `none` and renders as `""`; a field containing a quote, comma or
newline is wrapped in quotes with internal quotes doubled; any other field
passes through unchanged. -/
def escapeCSV : Option String → String
  | none => "\"\""
  | some s => if hasSpecialCSV s then "\"" ++ doubleQuotes s ++ "\"" else s

/-- `url.replace(/^https?:\/\//, '')` (src/wave-test.ts line 88): drop a
leading `https://` or `http://`. -/
def stripProtocol (url : String) : String :=
  if url.data.take 8 = ("https://").data then String.mk (url.data.drop 8)
  else if url.data.take 7 = ("http://").data then String.mk (url.data.drop 7)
  else url

/-- `filename.replace(/\/$/, '')` (line 90): drop one trailing slash. -/
def stripTrailingSlash (s : String) : String :=
  if s.data.getLast? = some '/' then String.mk (s.data.dropLast) else s

/-- `filename.replace(/[^a-zA-Z0-9]/g, '-')` (line 92). -/
def sanitizeBase (s : String) : String :=
  String.mk (s.data.map (fun c => if c.isAlphanum then c else '-'))

/-- Lines 94-97: truncate the base to `maxBaseLength = 200 - extension.length
- 1` characters; JS `substring` clamps a negative bound to 0, hence the
`Int.toNat`. -/
def truncateBase (s : String) (extLen : Nat) : String :=
  if (s.length : Int) > 200 - (extLen : Int) - 1 then
    String.mk (s.data.take (200 - (extLen : Int) - 1).toNat)
  else s

/-- `generateFilename` (src/wave-test.ts lines 86-99): strip protocol and
trailing slash, dash-sanitize, truncate, and assemble
`accessibility-results-<base>.<extension>`. -/
def generateFilename (url extension : String) : String :=
  ("accessibility-results-")
    ++ truncateBase (sanitizeBase (stripTrailingSlash (stripProtocol url))) extension.length
    ++ (".") ++ extension

/-! ## The polling initializer

`checkWaveAvailability` (src/wave-test.ts lines 314-407).  What the browser
environment shows at each attempt is an oracle `Nat → PollObs` indexed by the
value of the `attempts` counter after its increment. -/

/-- What one poll attempt observes. -/
inductive PollObs where
  | waveAbsent
  | domNotReady
  | initThrows (msg : String)
  | processThrows (msg : String)
  | ready
deriving DecidableEq

/-- The terminal outcome of the polling loop: `resolved` marks the attempt on
which `wave.fn.run()` was launched; `rejected` carries the rejection message.
-/
inductive PollResult where
  | resolved
  | rejected (msg : String)
deriving DecidableEq

/-- One body execution of `checkWaveAvailability` after `attempts++`
(src/wave-test.ts lines 314-407): either the loop terminates with a result or
it reschedules itself with the given `setTimeout` delay. -/
inductive PollStepOut where
  | reschedule (delay : Nat)
  | done (r : PollResult)
deriving DecidableEq

/-- The branch structure of one `checkWaveAvailability` call, with `attempts`
already incremented:
* entry point absent: reject with the exhaustion message once
  `attempts >= maxRetries`, else reschedule after `retryDelay`;
* entry point present but the DOM-readiness checks fail: reschedule after
  `retryDelay` (no attempt bound on this branch);
* `wave.fn.initialize()` throws: reschedule after `retryDelay * 2` while
  `attempts < maxRetries`, else reject terminally;
* an unexpected error in the surrounding block: same doubled-delay retry;
* otherwise initialization succeeded and `wave.fn.run()` is launched. -/
def checkWaveStep (maxRetries retryDelay : Nat) (obs : PollObs) (attempts : Nat) : PollStepOut :=
  match obs with
  | PollObs.waveAbsent =>
    if attempts ≥ maxRetries then
      PollStepOut.done (PollResult.rejected
        (("WAVE failed to initialize after ") ++ toString maxRetries ++ (" attempts")))
    else PollStepOut.reschedule retryDelay
  | PollObs.domNotReady => PollStepOut.reschedule retryDelay
  | PollObs.initThrows msg =>
    if attempts < maxRetries then PollStepOut.reschedule (retryDelay * 2)
    else PollStepOut.done (PollResult.rejected
      (("WAVE initialization failed after retries: ") ++ msg))
  | PollObs.processThrows msg =>
    if attempts < maxRetries then PollStepOut.reschedule (retryDelay * 2)
    else PollStepOut.done (PollResult.rejected (("WAVE process failed: ") ++ msg))
  | PollObs.ready => PollStepOut.done PollResult.resolved

/-- The polling loop: runs `checkWaveStep` with the attempts counter
incremented before each body, rescheduling until a terminal result.  `fuel`
bounds the number of modelled reschedules (the JS loop can reschedule
indefinitely on the DOM-readiness branch); `none` means the loop was still
pending when the fuel ran out.  Returns the result together with the final
value of the attempts counter. -/
def checkWaveLoop (maxRetries retryDelay : Nat) (env : Nat → PollObs) :
    Nat → Nat → Option (PollResult × Nat)
  | 0, _ => none
  | fuel + 1, attempts =>
    let a := attempts + 1
    match checkWaveStep maxRetries retryDelay (env a) a with
    | PollStepOut.done r => some (r, a)
    | PollStepOut.reschedule _ => checkWaveLoop maxRetries retryDelay env fuel a

/-- `maxRetries` constant of the wave-test.ts polling loop (line 311). -/
def wtMaxRetries : Nat := 100

/-- `retryDelay` constant of the wave-test.ts polling loop (line 312). -/
def wtRetryDelay : Nat := 200

/-! ## The batch orchestrator

`_processUrlWithRetry` (src/analyzer.js lines 427-464) and
`_createBatchSummary` (lines 473-493).  `analyzeUrl` is an oracle
`Nat → Except String ρ` giving, for each 0-based attempt index, either the
produced report (of an abstract report type `ρ`) or the thrown error message.
-/

/-- The per-URL result record pushed into the batch results array. -/
structure UrlResult (ρ : Type) where
  url : String
  success : Bool
  report : Option ρ
  error : Option String
  attempts : Nat
deriving DecidableEq

/-- The `while (attempt < config.maxRetries)` loop of `_processUrlWithRetry`:
a successful attempt returns a success record with `attempts = attempt + 1`;
a failure increments `attempt` and either returns the failure record with the
last error message (budget exhausted) or retries after a delay.  `none` is the
JS `undefined` that the function returns when the loop body never runs
(`maxRetries ≤ 0`). -/
def processLoop {ρ : Type} (analyze : Nat → Except String ρ) (maxRetries : Nat)
    (url : String) : Nat → Nat → Option (UrlResult ρ)
  | 0, _ => none
  | remaining + 1, attempt =>
    match analyze attempt with
    | Except.ok rep =>
      some { url := url, success := true, report := some rep, error := none
           , attempts := attempt + 1 }
    | Except.error msg =>
      if attempt + 1 ≥ maxRetries then
        some { url := url, success := false, report := none, error := some msg
             , attempts := attempt + 1 }
      else processLoop analyze maxRetries url remaining (attempt + 1)

/-- `_processUrlWithRetry` (src/analyzer.js lines 427-464), starting from
`attempt = 0`.  The structural counter `remaining` equals
`maxRetries - attempt` throughout, so `remaining = 0` is exactly the failed
loop guard `attempt < maxRetries`. -/
def processUrlWithRetry {ρ : Type} (analyze : Nat → Except String ρ)
    (maxRetries : Nat) (url : String) : Option (UrlResult ρ) :=
  processLoop analyze maxRetries url maxRetries 0

/-- The sequential per-URL loop of `analyzeBatch` (src/analyzer.js lines
410-419): every URL is processed and its record pushed, regardless of earlier
failures (the inter-URL delays do not affect the records). -/
def analyzeBatchResults {ρ : Type} (analyze : String → Nat → Except String ρ)
    (maxRetries : Nat) (urls : List String) : List (Option (UrlResult ρ)) :=
  urls.map (fun u => processUrlWithRetry (analyze u) maxRetries u)

/-- One row of the batch summary's `results` array (src/analyzer.js lines
484-490); the per-row `summary` payload and the float-valued
`successRate` / `aggregatedStats` fields are out of the modelled fragment. -/
structure BatchRow where
  url : String
  success : Bool
  attempts : Nat
  error : Option String
deriving DecidableEq

/-- The counting core of `_createBatchSummary` (src/analyzer.js lines
473-493): `successful`/`failed` are the lengths of the `success` /
`!success` filters of the results array. -/
structure BatchSummary where
  totalUrls : Nat
  successful : Nat
  failed : Nat
  rows : List BatchRow
deriving DecidableEq

/-- `_createBatchSummary` (src/analyzer.js lines 473-493). -/
def createBatchSummary {ρ : Type} (results : List (UrlResult ρ))
    (totalUrls : Nat) : BatchSummary :=
  { totalUrls := totalUrls
  , successful := (results.filter (fun r => r.success)).length
  , failed := (results.filter (fun r => !r.success)).length
  , rows := results.map (fun r =>
      { url := r.url, success := r.success, attempts := r.attempts
      , error := r.error }) }

/-! ## Sample inputs used by the concrete witnesses -/

/-- A DOM in which no XPath resolves to an element. -/
def domAbsent : String → DomLookup := fun _ => DomLookup.absent

/-- A DOM in which every XPath evaluation throws. -/
def domThrows : String → DomLookup := fun _ => DomLookup.throws ("SyntaxError")

def sampleItem : WaveRuleData :=
  { count := 3, xpaths := some ["a", "b", "a"]
  , selectors := some [JAux.str "s1", JAux.str "s2", JAux.bool false]
  , text := none, hidden := some [true, false, true]
  , contrastdata := none, domInfo := none, description := some "alt missing" }

def sampleCat : WaveCategory := { count := 3, items := some [("r1", sampleItem)] }

def sampleRes : WaveResults :=
  { categories := some [("error", sampleCat), ("alert", { count := 5, items := none })]
  , statistics := some (JVal.num 7) }

def sampleEnhCats : List (String × WaveCategory) :=
  [("error", enhanceCategory domAbsent sampleCat)]

def cexItem : WaveRuleData :=
  { count := 1, xpaths := some ["x1"], selectors := none, text := none
  , hidden := none, contrastdata := none, domInfo := none, description := none }

def cexRes : WaveResults :=
  { categories := some [("error", { count := 1, items := some [("r1", cexItem)] })]
  , statistics := none }

/-- The concrete batch oracle used by the C8 witness: URL `u2` throws `boom`
on every attempt, every other URL succeeds on the first attempt. -/
def sampleBatchAnalyze : String → Nat → Except String Nat :=
  fun u _ => if u = "u2" then Except.error ("boom") else Except.ok 7

/-! ## Lemmas, claim theorems and witnesses -/

theorem jsSetDedupAux_irrel :
    ∀ (f1 : Nat) (xs : List String) (f2 : Nat), xs.length ≤ f1 → xs.length ≤ f2 →
      jsSetDedupAux f1 xs = jsSetDedupAux f2 xs := by
  intro f1
  induction f1 with
  | zero =>
    intro xs f2 h1 h2
    match xs with
    | [] => cases f2 <;> rfl
    | x :: xs' => simp at h1
  | succ f1 ih =>
    intro xs f2 h1 h2
    match xs with
    | [] => cases f2 <;> rfl
    | x :: xs' =>
      match f2 with
      | 0 => simp at h2
      | f2 + 1 =>
        simp only [jsSetDedupAux, List.cons.injEq, true_and]
        exact ih (xs'.filter (fun y => y != x)) f2
          (le_trans (List.length_filter_le _ _) (by simpa using h1))
          (le_trans (List.length_filter_le _ _) (by simpa using h2))

theorem jsSetDedup_nil : jsSetDedup [] = [] := rfl

theorem jsSetDedup_cons (x : String) (xs : List String) :
    jsSetDedup (x :: xs) = x :: jsSetDedup (xs.filter (fun y => y != x)) := by
  show jsSetDedupAux (xs.length + 1) (x :: xs) = _
  simp only [jsSetDedupAux, List.cons.injEq, true_and]
  exact jsSetDedupAux_irrel xs.length _ _ (List.length_filter_le _ _) le_rfl

/-- Induction along the recursion structure of `jsSetDedup`. -/
theorem jsList_induction {motive : List String → Prop}
    (nil : motive [])
    (cons : ∀ x xs, motive (xs.filter (fun y => y != x)) → motive (x :: xs)) :
    ∀ xs, motive xs := by
  have key : ∀ (n : Nat) (xs : List String), xs.length ≤ n → motive xs := by
    intro n
    induction n with
    | zero =>
      intro xs h
      match xs with
      | [] => exact nil
      | x :: xs' => simp at h
    | succ n ih =>
      intro xs h
      match xs with
      | [] => exact nil
      | x :: xs' =>
        refine cons x xs' (ih _ ?_)
        exact le_trans (List.length_filter_le _ _) (by simpa using h)
  exact fun xs => key xs.length xs le_rfl

theorem jsSetDedup_mem (xs : List String) (a : String) :
    a ∈ jsSetDedup xs ↔ a ∈ xs := by
  induction xs using jsList_induction with
  | nil => simp [jsSetDedup_nil]
  | cons x xs ih =>
    simp only [jsSetDedup_cons, List.mem_cons, ih, List.mem_filter, bne_iff_ne,
      ne_eq, decide_not]
    constructor
    · rintro (rfl | ⟨h, _⟩)
      · exact Or.inl rfl
      · exact Or.inr h
    · rintro (rfl | h)
      · exact Or.inl rfl
      · by_cases hax : a = x
        · exact Or.inl hax
        · exact Or.inr ⟨h, by simp [hax]⟩

theorem jsSetDedup_nodup (xs : List String) : (jsSetDedup xs).Nodup := by
  induction xs using jsList_induction with
  | nil => simp [jsSetDedup_nil]
  | cons x xs ih =>
    simp only [jsSetDedup_cons, List.nodup_cons]
    refine ⟨fun hmem => ?_, ih⟩
    rw [jsSetDedup_mem] at hmem
    simp [List.mem_filter] at hmem

theorem jsSetDedup_sublist (xs : List String) : (jsSetDedup xs).Sublist xs := by
  induction xs using jsList_induction with
  | nil => simp [jsSetDedup_nil]
  | cons x xs ih =>
    rw [jsSetDedup_cons]
    exact (ih.trans (List.filter_sublist xs)).cons₂ x

theorem jsSetDedup_length_le (xs : List String) :
    (jsSetDedup xs).length ≤ xs.length :=
  (jsSetDedup_sublist xs).length_le

theorem firstIdx_filter_lt (p : String → Bool) (xs : List String)
    (a b : String) (ha : a ∈ xs.filter p) (hb : b ∈ xs.filter p)
    (h : firstIdx (xs.filter p) a < firstIdx (xs.filter p) b) :
    firstIdx xs a < firstIdx xs b := by
  induction xs with
  | nil => simp at ha
  | cons y ys ih =>
    by_cases hp : p y
    · rw [List.filter_cons_of_pos hp] at ha hb h
      by_cases hya : y = a
      · subst hya
        have hyb : y ≠ b := by
          rintro rfl
          exact lt_irrefl _ h
        have e1 : firstIdx (y :: ys) y = 0 := by simp [firstIdx]
        have e2 : firstIdx (y :: ys) b = firstIdx ys b + 1 := by
          simp [firstIdx, hyb]
        omega
      · by_cases hyb : y = b
        · subst hyb
          have e0 : firstIdx (y :: ys.filter p) y = 0 := by simp [firstIdx]
          omega
        · have f1 : firstIdx (y :: ys.filter p) a
              = firstIdx (ys.filter p) a + 1 := by simp [firstIdx, hya]
          have f2 : firstIdx (y :: ys.filter p) b
              = firstIdx (ys.filter p) b + 1 := by simp [firstIdx, hyb]
          have g1 : firstIdx (y :: ys) a = firstIdx ys a + 1 := by
            simp [firstIdx, hya]
          have g2 : firstIdx (y :: ys) b = firstIdx ys b + 1 := by
            simp [firstIdx, hyb]
          have ha' : a ∈ ys.filter p := by
            rcases List.mem_cons.mp ha with h1 | h1
            · exact absurd h1.symm hya
            · exact h1
          have hb' : b ∈ ys.filter p := by
            rcases List.mem_cons.mp hb with h1 | h1
            · exact absurd h1.symm hyb
            · exact h1
          have := ih ha' hb' (by omega)
          omega
    · rw [List.filter_cons_of_neg hp] at ha hb h
      have hya : y ≠ a := by
        rintro rfl
        exact hp (List.mem_filter.mp ha).2
      have hyb : y ≠ b := by
        rintro rfl
        exact hp (List.mem_filter.mp hb).2
      simp only [firstIdx, if_neg hya, if_neg hyb]
      have := ih ha hb h
      omega

/-- `jsSetDedup` lists elements in strictly increasing order of their first
occurrence in the input. -/
theorem jsSetDedup_pairwise_firstIdx (xs : List String) :
    (jsSetDedup xs).Pairwise (fun a b => firstIdx xs a < firstIdx xs b) := by
  induction xs using jsList_induction with
  | nil => simp [jsSetDedup_nil]
  | cons x xs ih =>
    simp only [jsSetDedup_cons, List.pairwise_cons]
    constructor
    · intro b hb
      have hb' : b ∈ xs.filter (fun y => y != x) := (jsSetDedup_mem _ _).mp hb
      have hbx : b ≠ x := by
        have := (List.mem_filter.mp hb').2
        simpa [bne_iff_ne] using this
      simp [firstIdx, if_pos rfl, if_neg (Ne.symm hbx)]
    · refine ih.imp_of_mem (fun {a b} ha hb hab => ?_)
      have ha' : a ∈ xs.filter (fun y => y != x) := (jsSetDedup_mem _ _).mp ha
      have hb' : b ∈ xs.filter (fun y => y != x) := (jsSetDedup_mem _ _).mp hb
      have hax : a ≠ x := by
        have := (List.mem_filter.mp ha').2
        simpa [bne_iff_ne] using this
      have hbx : b ≠ x := by
        have := (List.mem_filter.mp hb').2
        simpa [bne_iff_ne] using this
      have := firstIdx_filter_lt _ xs a b ha' hb' hab
      simp only [firstIdx, if_neg (Ne.symm hax), if_neg (Ne.symm hbx)]
      omega

theorem jsGet_map {α β : Type} (f : α → β) (l : List (String × α)) (k : String) :
    jsGet (l.map (fun kv => (kv.1, f kv.2))) k = (jsGet l k).map f := by
  induction l with
  | nil => rfl
  | cons kv l ih =>
    simp only [jsGet, List.map_cons, List.find?] at ih ⊢
    by_cases h : (kv.1 == k) = true
    · rw [h]
      rfl
    · rw [Bool.not_eq_true] at h
      rw [h]
      exact ih

theorem jvalToOptStr_optStrToJson (o : Option String) :
    jvalToOptStr (optStrToJson o) = o := by
  cases o <;> rfl

theorem map_kv_roundtrip {α β : Type} (f : α → β) (g : β → α)
    (hfg : ∀ a, g (f a) = a) (l : List (String × α)) :
    (l.map (fun kv => (kv.1, f kv.2))).map (fun kv => (kv.1, g kv.2)) = l := by
  induction l with
  | nil => rfl
  | cons kv l ih => simp [ih, hfg]

theorem map_roundtrip {α β : Type} (f : α → β) (g : β → α)
    (hfg : ∀ a, g (f a) = a) (l : List α) :
    (l.map f).map g = l := by
  induction l with
  | nil => rfl
  | cons a l ih => simp [ih, hfg]

theorem jvalToStr_str (s : String) : jvalToStr (JVal.str s) = s := rfl

theorem jvalToBool_bool (b : Bool) : jvalToBool (JVal.bool b) = b := rfl

theorem elementInfoOfJson_toJson (e : ElementInfo) :
    elementInfoOfJson (elementInfoToJson e) = e := by
  cases e with
  | mk tagName id className textContent innerHTML attributes selector =>
    simp [elementInfoToJson, elementInfoOfJson, jsGet,
      jvalToOptStr_optStrToJson, jvalToStr_str, Function.comp,
      map_kv_roundtrip JVal.str jvalToStr jvalToStr_str attributes]

theorem domInfoEntryOfJson_toJson (d : DomInfoEntry) :
    domInfoEntryOfJson (domInfoEntryToJson d) = d := by
  cases d with
  | info e =>
    have h := elementInfoOfJson_toJson e
    cases e with
    | mk tagName id className textContent innerHTML attributes selector =>
      simp only [domInfoEntryToJson, elementInfoToJson] at h ⊢
      simp [domInfoEntryOfJson, jsGet, h]
  | error msg => rfl

theorem jauxOfJson_toJson (a : JAux) : jauxOfJson (jauxToJson a) = a := by
  cases a with
  | str s => rfl
  | bool b => rfl
  | arr l =>
    simp only [jauxToJson, jauxOfJson]
    exact congrArg _ (map_roundtrip _ _ (fun s => rfl) l)

theorem jvalToOptList_optListToJson {α : Type} (enc : α → JVal) (dec : JVal → α)
    (h : ∀ a, dec (enc a) = a) (o : Option (List α)) :
    jvalToOptList dec (optListToJson enc o) = o := by
  cases o with
  | none => rfl
  | some l =>
    simp only [optListToJson, jvalToOptList]
    exact congrArg _ (map_roundtrip _ _ h l)

theorem waveRuleDataOfJson_toJson (r : WaveRuleData) :
    waveRuleDataOfJson (waveRuleDataToJson r) = r := by
  cases r with
  | mk count xpaths selectors text hidden contrastdata domInfo description =>
    simp [waveRuleDataToJson, waveRuleDataOfJson, jsGet, jvalToNat,
      jvalToOptList_optListToJson JVal.str jvalToStr jvalToStr_str,
      jvalToOptList_optListToJson jauxToJson jauxOfJson jauxOfJson_toJson,
      jvalToOptList_optListToJson JVal.bool jvalToBool jvalToBool_bool,
      jvalToOptList_optListToJson domInfoEntryToJson domInfoEntryOfJson
        domInfoEntryOfJson_toJson,
      jvalToOptStr_optStrToJson]

theorem waveCategoryOfJson_toJson (c : WaveCategory) :
    waveCategoryOfJson (waveCategoryToJson c) = c := by
  cases c with
  | mk count items =>
    cases items with
    | none =>
      simp [waveCategoryToJson, waveCategoryOfJson, jsGet, jvalToNat]
    | some l =>
      simp [waveCategoryToJson, waveCategoryOfJson, jsGet, jvalToNat,
        map_kv_roundtrip _ _ waveRuleDataOfJson_toJson l]

/-- The `JSON.parse(JSON.stringify(…))` deep copy reproduces the raw results
structure exactly. -/
theorem deepCopyResults_eq (r : WaveResults) : deepCopyResults r = r := by
  cases r with
  | mk categories statistics =>
    cases categories with
    | none =>
      cases statistics with
      | none => rfl
      | some j => rfl
    | some cats =>
      cases statistics with
      | none =>
        simp [deepCopyResults, resultsToJson, resultsOfJson, jsGet,
          map_kv_roundtrip _ _ waveCategoryOfJson_toJson cats]
      | some j =>
        simp [deepCopyResults, resultsToJson, resultsOfJson, jsGet,
          map_kv_roundtrip _ _ waveCategoryOfJson_toJson cats]

theorem doubleQuotes_data_count (l : List Char) :
    (l.flatMap (fun c => if c = '"' then ['"', '"'] else [c])).count '"'
      = 2 * l.count '"' := by
  induction l with
  | nil => rfl
  | cons c l ih =>
    by_cases hc : c = '"'
    · subst hc
      simp [List.count_cons, ih]
      omega
    · simp [List.count_cons, hc, ih]

/-- Claim C4: `escapeCSV` returns `""` on a null/undefined field; a field
containing a double quote, comma or newline is wrapped in double quotes with
every internal double quote doubled (so the output has exactly
`2·(input quotes) + 2` double quotes); any other field is returned unchanged,
hence escaping is idempotent on such fields; and the field
`He said "hi", ok` escapes to `"He said ""hi"", ok"`. -/
theorem escapeCSV_spec :
    escapeCSV none = "\"\"" ∧
    (∀ s : String, hasSpecialCSV s = true →
      escapeCSV (some s) = "\"" ++ doubleQuotes s ++ "\"" ∧
      (escapeCSV (some s)).data.count '"' = 2 * s.data.count '"' + 2) ∧
    (∀ s : String, hasSpecialCSV s = false → escapeCSV (some s) = s) ∧
    (∀ s : String, hasSpecialCSV s = false →
      escapeCSV (some (escapeCSV (some s))) = escapeCSV (some s)) ∧
    escapeCSV (some ("He said \"hi\", ok")) = "\"He said \"\"hi\"\", ok\"" := by
  refine ⟨rfl, ?_, ?_, ?_, by decide⟩
  · intro s hs
    refine ⟨by simp [escapeCSV, hs], ?_⟩
    simp only [escapeCSV, hs, if_pos]
    rw [String.data_append, String.data_append]
    simp only [List.count_append, doubleQuotes]
    rw [doubleQuotes_data_count]
    have h1 : List.count '"' ['"'] = 1 := rfl
    rw [h1]
    omega
  · intro s hs
    simp [escapeCSV, hs]
  · intro s hs
    have h1 : escapeCSV (some s) = s := by simp [escapeCSV, hs]
    rw [h1, h1]

/-- Witness for C4 at concrete fields: a comma forces quoting, a plain field
passes through unchanged. -/
theorem escapeCSV_spec_witness :
    hasSpecialCSV ("a,b") = true ∧ escapeCSV (some ("a,b")) = "\"a,b\"" ∧
    hasSpecialCSV ("plain") = false ∧ escapeCSV (some ("plain")) = "plain" :=
  ⟨by decide, by rw [(escapeCSV_spec.2.1 ("a,b") (by decide)).1]; decide,
   by decide, escapeCSV_spec.2.2.1 ("plain") (by decide)⟩

theorem truncateBase_length_le (s : String) (extLen : Nat) (h : extLen ≤ 199) :
    (truncateBase s extLen).length ≤ 199 - extLen := by
  unfold truncateBase
  split
  · rename_i hgt
    have hlen : (String.mk (s.data.take (200 - (extLen : Int) - 1).toNat)).length
        = (s.data.take (200 - (extLen : Int) - 1).toNat).length := rfl
    rw [List.length_take] at hlen
    have hsl : s.length = s.data.length := rfl
    omega
  · rename_i hle
    push_neg at hle
    omega

theorem generateFilename_length_le (url ext : String) (hext : ext.length ≤ 199) :
    (generateFilename url ext).length ≤ 222 := by
  unfold generateFilename
  rw [String.length_append, String.length_append, String.length_append]
  have h22 : ("accessibility-results-" : String).length = 22 := rfl
  have hdot : ("." : String).length = 1 := rfl
  have hb := truncateBase_length_le
    (sanitizeBase (stripTrailingSlash (stripProtocol url))) ext.length hext
  omega

/-- Claim C9: the derived output filename strips a leading `http://` or
`https://`, removes one trailing slash, replaces every non-alphanumeric
character with a dash, and truncates the sanitized base so that the full
filename stays under ~255 characters (at most 222 for any extension of
length at most 199, covering every extension the source passes); the
derivation is a total function, and `https://example.com/about` yields
`accessibility-results-example-com-about.csv`, protocol and trailing slash
removed. -/
theorem generateFilename_spec :
    (∀ url ext : String, ext.length ≤ 199 →
      (generateFilename url ext).length ≤ 222 ∧ 222 < 255) ∧
    generateFilename ("https://example.com/about") ("csv")
      = "accessibility-results-example-com-about.csv" ∧
    generateFilename ("http://example.com/about/") ("csv")
      = "accessibility-results-example-com-about.csv" := by
  refine ⟨fun url ext hext => ⟨generateFilename_length_le url ext hext, by omega⟩,
    by decide, by decide⟩

set_option maxRecDepth 4000 in
/-- Witness for C9: the length bound applied at a 400-character URL, which is
truncated to the 195-character base budget of the `json` extension without
any failure. -/
theorem generateFilename_spec_witness :
    (("json" : String).length ≤ 199 ∧
      (generateFilename (String.mk (List.replicate 400 'a')) ("json")).length ≤ 222) ∧
    generateFilename (String.mk (List.replicate 400 'a')) ("json")
      = ("accessibility-results-") ++ String.mk (List.replicate 195 'a') ++ (".json") :=
  ⟨⟨by decide,
    (generateFilename_spec.1 (String.mk (List.replicate 400 'a')) ("json") (by decide)).1⟩,
   by decide⟩

theorem checkWaveLoop_absent (M d : Nat) (env : Nat → PollObs)
    (henv : ∀ k, k ≤ M → env k = PollObs.waveAbsent) :
    ∀ fuel a, a < M → M ≤ a + fuel →
      checkWaveLoop M d env fuel a
        = some (PollResult.rejected
            (("WAVE failed to initialize after ") ++ toString M ++ (" attempts")), M) := by
  intro fuel
  induction fuel with
  | zero =>
    intro a ha hfa
    omega
  | succ fuel ih =>
    intro a ha hfa
    simp only [checkWaveLoop]
    rw [henv (a + 1) (by omega)]
    simp only [checkWaveStep]
    by_cases hM : a + 1 ≥ M
    · have haM : a + 1 = M := by omega
      rw [if_pos hM, haM]
    · rw [if_neg hM]
      exact ih (a + 1) (by omega) (by omega)

/-- Claim C7: in the wave-test.ts polling initializer, an attempt on which the
WAVE entry point is present but `wave.fn.initialize()` throws is retried while
the attempt counter is below the maximum (100), each retry scheduled with the
doubled delay `retryDelay * 2 = 400 > 200`; once the counter reaches the
maximum such an attempt surfaces a terminal rejection; and a run whose attempt
budget is exhausted without the entry point ever appearing rejects with
`WAVE failed to initialize after 100 attempts`. -/
theorem checkWave_retry_and_exhaustion :
    (∀ (msg : String) (a : Nat), a < wtMaxRetries →
      checkWaveStep wtMaxRetries wtRetryDelay (PollObs.initThrows msg) a
        = PollStepOut.reschedule (wtRetryDelay * 2) ∧ wtRetryDelay < wtRetryDelay * 2) ∧
    (∀ (msg : String) (a : Nat), wtMaxRetries ≤ a →
      checkWaveStep wtMaxRetries wtRetryDelay (PollObs.initThrows msg) a
        = PollStepOut.done (PollResult.rejected
            (("WAVE initialization failed after retries: ") ++ msg))) ∧
    (∀ (env : Nat → PollObs) (fuel : Nat), wtMaxRetries ≤ fuel →
      (∀ k, env k = PollObs.waveAbsent) →
      checkWaveLoop wtMaxRetries wtRetryDelay env fuel 0
        = some (PollResult.rejected
            (("WAVE failed to initialize after ") ++ toString wtMaxRetries ++ (" attempts")),
          wtMaxRetries)) := by
  refine ⟨?_, ?_, ?_⟩
  · intro msg a ha
    refine ⟨?_, by decide⟩
    simp [checkWaveStep, ha]
  · intro msg a ha
    have : ¬ a < wtMaxRetries := by omega
    simp [checkWaveStep, this]
  · intro env fuel hfuel henv
    exact checkWaveLoop_absent wtMaxRetries wtRetryDelay env
      (fun k _ => henv k) fuel 0 (by decide) (by omega)

/-- Witness for C7: a throwing third attempt is rescheduled with the doubled
delay; a throwing 100th attempt rejects terminally; and an environment in
which the entry point never appears rejects after exactly 100 attempts. -/
theorem checkWave_retry_and_exhaustion_witness :
    (3 < wtMaxRetries ∧
      checkWaveStep wtMaxRetries wtRetryDelay (PollObs.initThrows ("boom")) 3
        = PollStepOut.reschedule (wtRetryDelay * 2)) ∧
    (wtMaxRetries ≤ wtMaxRetries ∧
      checkWaveStep wtMaxRetries wtRetryDelay (PollObs.initThrows ("boom")) wtMaxRetries
        = PollStepOut.done (PollResult.rejected
            ("WAVE initialization failed after retries: boom"))) ∧
    checkWaveLoop wtMaxRetries wtRetryDelay (fun _ => PollObs.waveAbsent) 100 0
      = some (PollResult.rejected ("WAVE failed to initialize after 100 attempts"),
          wtMaxRetries) :=
  ⟨⟨by decide, (checkWave_retry_and_exhaustion.1 ("boom") 3 (by decide)).1⟩,
   ⟨le_refl _, by
      rw [checkWave_retry_and_exhaustion.2.1 ("boom") wtMaxRetries (le_refl _)]
      decide⟩,
   by
      rw [checkWave_retry_and_exhaustion.2.2 (fun _ => PollObs.waveAbsent) 100
        (by decide) (fun k => rfl)]
      decide⟩

theorem enhance_categories_eq (dom : String → DomLookup) (r : WaveResults) :
    (enhanceResultsWithDOMInfo dom r).categories
      = some ((filteredCategories r).map (fun kv => (kv.1, enhanceCategory dom kv.2))) := by
  simp only [enhanceResultsWithDOMInfo, enhanceCore, deepCopyResults_eq]

/-- Claim C1: for every rule group reachable in the enhanced output whose raw
input had an `xpaths` array, the enhancer replaces that array with its
deduplicated sequence — each distinct XPath exactly once (`Nodup` plus the
membership equivalence), ordered by first occurrence in the input (`Pairwise`
on first-occurrence indices) — and sets the rule group's `count` to the
deduplicated sequence's length. -/
theorem enhance_dedup_xpaths_count
    (dom : String → DomLookup) (r : WaveResults) (ckey : String)
    (cat : WaveCategory) (rawItems : List (String × WaveRuleData))
    (k : String) (item : WaveRuleData) (xs : List String)
    (hc : jsGet (filteredCategories r) ckey = some cat)
    (hi : cat.items = some rawItems)
    (hk : jsGet rawItems k = some item)
    (hx : item.xpaths = some xs) :
    ∃ cats', (enhanceResultsWithDOMInfo dom r).categories = some cats' ∧
      jsGet cats' ckey = some (enhanceCategory dom cat) ∧
      (enhanceCategory dom cat).items
        = some (rawItems.map (fun kv => (kv.1, enhanceItem dom kv.2))) ∧
      jsGet (rawItems.map (fun kv => (kv.1, enhanceItem dom kv.2))) k
        = some (enhanceItem dom item) ∧
      (enhanceItem dom item).xpaths = some (jsSetDedup xs) ∧
      (enhanceItem dom item).count = (jsSetDedup xs).length ∧
      (jsSetDedup xs).Nodup ∧
      (∀ a, a ∈ jsSetDedup xs ↔ a ∈ xs) ∧
      (jsSetDedup xs).Pairwise (fun a b => firstIdx xs a < firstIdx xs b) := by
  refine ⟨_, enhance_categories_eq dom r, ?_, ?_, ?_, ?_, ?_,
    jsSetDedup_nodup xs, fun a => jsSetDedup_mem xs a,
    jsSetDedup_pairwise_firstIdx xs⟩
  · rw [jsGet_map (enhanceCategory dom) (filteredCategories r) ckey, hc]
    rfl
  · simp [enhanceCategory, hi]
  · rw [jsGet_map (enhanceItem dom) rawItems k, hk]
    rfl
  · simp [enhanceItem, hx]
  · simp [enhanceItem, hx]

/-- Witness for C1 at a concrete raw result whose `error` category holds one
rule with the duplicated XPath list `["a", "b", "a"]`. -/
theorem enhance_dedup_xpaths_count_witness :
    ∃ cats', (enhanceResultsWithDOMInfo domAbsent sampleRes).categories = some cats' ∧
      jsGet cats' ("error") = some (enhanceCategory domAbsent sampleCat) ∧
      (enhanceCategory domAbsent sampleCat).items
        = some ([("r1", sampleItem)].map (fun kv => (kv.1, enhanceItem domAbsent kv.2))) ∧
      jsGet ([("r1", sampleItem)].map (fun kv => (kv.1, enhanceItem domAbsent kv.2))) ("r1")
        = some (enhanceItem domAbsent sampleItem) ∧
      (enhanceItem domAbsent sampleItem).xpaths = some (jsSetDedup ["a", "b", "a"]) ∧
      (enhanceItem domAbsent sampleItem).count = (jsSetDedup ["a", "b", "a"]).length ∧
      (jsSetDedup ["a", "b", "a"]).Nodup ∧
      (∀ a, a ∈ jsSetDedup ["a", "b", "a"] ↔ a ∈ ["a", "b", "a"]) ∧
      (jsSetDedup ["a", "b", "a"]).Pairwise
        (fun a b => firstIdx ["a", "b", "a"] a < firstIdx ["a", "b", "a"] b) :=
  enhance_dedup_xpaths_count domAbsent sampleRes ("error") sampleCat
    ([("r1", sampleItem)]) ("r1") sampleItem (["a", "b", "a"])
    (by decide) rfl (by decide) rfl

/-- Claim C2: every category reachable in the enhanced output that carries an
items map has its `count` equal to the sum of its rule groups' `count` fields
(the per-rule counts after deduplication). -/
theorem enhance_category_count_sum
    (dom : String → DomLookup) (r : WaveResults) (ckey : String)
    (cats' : List (String × WaveCategory)) (cat' : WaveCategory)
    (items' : List (String × WaveRuleData))
    (h1 : (enhanceResultsWithDOMInfo dom r).categories = some cats')
    (h2 : jsGet cats' ckey = some cat')
    (h3 : cat'.items = some items') :
    cat'.count = (items'.map (fun kv => kv.2.count)).sum := by
  rw [enhance_categories_eq dom r] at h1
  injection h1 with h1
  subst h1
  rw [jsGet_map] at h2
  cases hmem : jsGet (filteredCategories r) ckey with
  | none =>
    rw [hmem] at h2
    simp at h2
  | some cat =>
    rw [hmem] at h2
    simp only [Option.map_some'] at h2
    injection h2 with h2
    subst h2
    cases hit : cat.items with
    | none =>
      have hnone : (enhanceCategory dom cat).items = none := by
        simp [enhanceCategory, hit]
      rw [hnone] at h3
      exact absurd h3 (by simp)
    | some items0 =>
      have hcat : enhanceCategory dom cat
          = { count := ((items0.map (fun kv => (kv.1, enhanceItem dom kv.2))).map
                (fun kv => kv.2.count)).sum
            , items := some (items0.map (fun kv => (kv.1, enhanceItem dom kv.2))) } := by
        simp [enhanceCategory, hit]
      rw [hcat] at h3 ⊢
      simp only at h3
      injection h3 with h3
      subst h3
      rfl

/-- Witness for C2: the concrete enhanced `error` category's count equals the
sum of its (single) rule group's deduplicated count. -/
theorem enhance_category_count_sum_witness :
    (enhanceCategory domAbsent sampleCat).count
      = ([("r1", enhanceItem domAbsent sampleItem)].map (fun kv => kv.2.count)).sum :=
  enhance_category_count_sum domAbsent sampleRes ("error") sampleEnhCats
    (enhanceCategory domAbsent sampleCat) ([("r1", enhanceItem domAbsent sampleItem)])
    (by decide) (by decide) (by decide)

/-- Claim C5: for every rule group reachable in the enhanced output whose raw
input had an `xpaths` array, each auxiliary positional array present in the
input (`selectors`, `text`, `hidden`, `contrastdata`) is truncated by index
against the original array order — the output is literally `take n` of the
original array, not a re-association through the first-occurrence index
mapping — where `n` is the deduplicated XPath count; for a positional array
(one at least as long as the raw XPath list, as the parallel-array data model
prescribes) the truncated length equals `n` exactly. -/
theorem enhance_aux_arrays_truncated
    (dom : String → DomLookup) (r : WaveResults) (ckey : String)
    (cat : WaveCategory) (rawItems : List (String × WaveRuleData))
    (k : String) (item : WaveRuleData) (xs : List String)
    (hc : jsGet (filteredCategories r) ckey = some cat)
    (hi : cat.items = some rawItems)
    (hk : jsGet rawItems k = some item)
    (hx : item.xpaths = some xs) :
    (∃ cats', (enhanceResultsWithDOMInfo dom r).categories = some cats' ∧
      jsGet cats' ckey = some (enhanceCategory dom cat) ∧
      (enhanceCategory dom cat).items
        = some (rawItems.map (fun kv => (kv.1, enhanceItem dom kv.2))) ∧
      jsGet (rawItems.map (fun kv => (kv.1, enhanceItem dom kv.2))) k
        = some (enhanceItem dom item)) ∧
    (enhanceItem dom item).selectors
      = item.selectors.map (fun l => l.take (jsSetDedup xs).length) ∧
    (enhanceItem dom item).text
      = item.text.map (fun l => l.take (jsSetDedup xs).length) ∧
    (enhanceItem dom item).hidden
      = item.hidden.map (fun l => l.take (jsSetDedup xs).length) ∧
    (enhanceItem dom item).contrastdata
      = item.contrastdata.map (fun l => l.take (jsSetDedup xs).length) ∧
    (∀ l : List JAux, item.selectors = some l → xs.length ≤ l.length →
      (enhanceItem dom item).selectors = some (l.take (jsSetDedup xs).length) ∧
      (l.take (jsSetDedup xs).length).length = (jsSetDedup xs).length) ∧
    (∀ l : List JAux, item.text = some l → xs.length ≤ l.length →
      (enhanceItem dom item).text = some (l.take (jsSetDedup xs).length) ∧
      (l.take (jsSetDedup xs).length).length = (jsSetDedup xs).length) ∧
    (∀ l : List Bool, item.hidden = some l → xs.length ≤ l.length →
      (enhanceItem dom item).hidden = some (l.take (jsSetDedup xs).length) ∧
      (l.take (jsSetDedup xs).length).length = (jsSetDedup xs).length) ∧
    (∀ l : List JAux, item.contrastdata = some l → xs.length ≤ l.length →
      (enhanceItem dom item).contrastdata = some (l.take (jsSetDedup xs).length) ∧
      (l.take (jsSetDedup xs).length).length = (jsSetDedup xs).length) := by
  have hsel : (enhanceItem dom item).selectors
      = item.selectors.map (fun l => l.take (jsSetDedup xs).length) := by
    simp [enhanceItem, hx]
  have htext : (enhanceItem dom item).text
      = item.text.map (fun l => l.take (jsSetDedup xs).length) := by
    simp [enhanceItem, hx]
  have hhid : (enhanceItem dom item).hidden
      = item.hidden.map (fun l => l.take (jsSetDedup xs).length) := by
    simp [enhanceItem, hx]
  have hcon : (enhanceItem dom item).contrastdata
      = item.contrastdata.map (fun l => l.take (jsSetDedup xs).length) := by
    simp [enhanceItem, hx]
  have hlen : ∀ (α : Type) (l : List α), xs.length ≤ l.length →
      (l.take (jsSetDedup xs).length).length = (jsSetDedup xs).length := by
    intro α l hl
    rw [List.length_take]
    have := jsSetDedup_length_le xs
    omega
  refine ⟨?_, hsel, htext, hhid, hcon, ?_, ?_, ?_, ?_⟩
  · refine ⟨_, enhance_categories_eq dom r, ?_, ?_, ?_⟩
    · rw [jsGet_map (enhanceCategory dom) (filteredCategories r) ckey, hc]
      rfl
    · simp [enhanceCategory, hi]
    · rw [jsGet_map (enhanceItem dom) rawItems k, hk]
      rfl
  · intro l hl hll
    rw [hl] at hsel
    exact ⟨hsel, hlen _ l hll⟩
  · intro l hl hll
    rw [hl] at htext
    exact ⟨htext, hlen _ l hll⟩
  · intro l hl hll
    rw [hl] at hhid
    exact ⟨hhid, hlen _ l hll⟩
  · intro l hl hll
    rw [hl] at hcon
    exact ⟨hcon, hlen _ l hll⟩

/-- Witness for C5: in the concrete sample, `selectors` (length 3, equal to
the raw XPath count) is truncated to the deduplicated length 2 by index. -/
theorem enhance_aux_arrays_truncated_witness :
    (enhanceItem domAbsent sampleItem).selectors
      = some ([JAux.str "s1", JAux.str "s2", JAux.bool false].take
          (jsSetDedup ["a", "b", "a"]).length) ∧
    ([JAux.str "s1", JAux.str "s2", JAux.bool false].take
        (jsSetDedup ["a", "b", "a"]).length).length
      = (jsSetDedup ["a", "b", "a"]).length :=
  (enhance_aux_arrays_truncated domAbsent sampleRes ("error") sampleCat
      ([("r1", sampleItem)]) ("r1") sampleItem (["a", "b", "a"])
      (by decide) rfl (by decide) rfl).2.2.2.2.2.1
    ([JAux.str "s1", JAux.str "s2", JAux.bool false]) rfl (by decide)

/-- Claim C6: the enhanced output's categories map contains at most the keys
`error` and `contrast`, each present exactly when present in the raw input's
categories map; every other key present in the raw input is absent from the
output. -/
theorem enhance_categories_filtered
    (dom : String → DomLookup) (r : WaveResults)
    (cats' : List (String × WaveCategory))
    (h : (enhanceResultsWithDOMInfo dom r).categories = some cats') :
    ∀ key : String, (jsGet cats' key).isSome
      ↔ ((key = "error" ∨ key = "contrast")
          ∧ (jsGet (r.categories.getD []) key).isSome) := by
  rw [enhance_categories_eq dom r] at h
  injection h with h
  subst h
  intro key
  rw [jsGet_map]
  rw [Option.isSome_map']
  have hfc : filteredCategories r =
      (match jsGet (r.categories.getD []) ("error") with
       | some c => [(("error" : String), c)]
       | none => []) ++
      (match jsGet (r.categories.getD []) ("contrast") with
       | some c => [(("contrast" : String), c)]
       | none => []) := rfl
  rw [hfc]
  by_cases hk1 : key = "error"
  · subst hk1
    cases hE : jsGet (r.categories.getD []) ("error") <;>
      cases hC : jsGet (r.categories.getD []) ("contrast") <;>
        simp [jsGet, hE, hC]
  · by_cases hk2 : key = "contrast"
    · subst hk2
      cases hE : jsGet (r.categories.getD []) ("error") <;>
        cases hC : jsGet (r.categories.getD []) ("contrast") <;>
          simp [jsGet, hE, hC]
    · cases hE : jsGet (r.categories.getD []) ("error") <;>
        cases hC : jsGet (r.categories.getD []) ("contrast") <;>
          simp [jsGet, hE, hC, hk1, hk2, Ne.symm hk1, Ne.symm hk2]

/-- Witness for C6: the raw sample has an `alert` category; it is present in
the raw input but absent from the enhanced output. -/
theorem enhance_categories_filtered_witness :
    ((jsGet sampleEnhCats ("alert")).isSome
      ↔ ((("alert" : String) = "error" ∨ ("alert" : String) = "contrast")
          ∧ (jsGet (sampleRes.categories.getD []) ("alert")).isSome)) ∧
    jsGet (sampleRes.categories.getD []) ("alert") ≠ none ∧
    jsGet sampleEnhCats ("alert") = none :=
  ⟨enhance_categories_filtered domAbsent sampleRes sampleEnhCats (by decide) ("alert"),
   by decide, by decide⟩

/-- Counterexample to claim C3 as stated: in the enhanced output of `cexRes`
under a DOM where no XPath resolves (`domAbsent`), the `error` rule group's
deduplicated list is `["x1"]` — one XPath whose lookup resolves no element —
yet its `domInfo` output is the empty list: the `null` result of the lookup
is filtered out by `.filter(info => info !== null)` rather than recorded at
that XPath's position, so position 0 of `domInfo` holds no entry at all. -/
theorem domInfo_absent_dropped_cex :
    domAbsent ("x1") = DomLookup.absent ∧
    (enhanceResultsWithDOMInfo domAbsent cexRes).categories
      = some [("error", { count := 1
                        , items := some [("r1", enhanceItem domAbsent cexItem)] })] ∧
    (enhanceItem domAbsent cexItem).xpaths = some ["x1"] ∧
    (enhanceItem domAbsent cexItem).domInfo = some [] ∧
    ((enhanceItem domAbsent cexItem).domInfo.getD []).length = 0 ∧
    ((enhanceItem domAbsent cexItem).domInfo.getD []).get? 0 = none := by
  refine ⟨rfl, by decide, by decide, by decide, by decide, by decide⟩

/-- Claim C3 (amended): for a rule group with an `xpaths` array, the enhanced
`domInfo` is the per-XPath lookup results with the `null` results of
element-less lookups filtered out; a lookup that throws is recorded as an
`\x7b error \x7d` marker object (present in `domInfo`, though at a shifted
position when nulls were dropped); a lookup that resolves no element yields
`null` and leaves no `domInfo` entry; and neither case makes the enhancement
partial — it is a total function of the oracle and the input. -/
theorem domInfo_error_markers_amended
    (dom : String → DomLookup) (item : WaveRuleData) (xs : List String)
    (hx : item.xpaths = some xs) :
    (enhanceItem dom item).domInfo
      = some (((jsSetDedup xs).map (getElementInfo dom)).filterMap id) ∧
    (∀ x, x ∈ jsSetDedup xs → ∀ msg, dom x = DomLookup.throws msg →
      DomInfoEntry.error msg ∈ ((jsSetDedup xs).map (getElementInfo dom)).filterMap id) ∧
    (∀ x, dom x = DomLookup.absent → getElementInfo dom x = none) := by
  refine ⟨by simp [enhanceItem, hx], ?_, ?_⟩
  · intro x hmem msg hthrow
    rw [List.mem_filterMap]
    refine ⟨some (DomInfoEntry.error msg), ?_, rfl⟩
    rw [List.mem_map]
    exact ⟨x, hmem, by simp [getElementInfo, hthrow]⟩
  · intro x habs
    simp [getElementInfo, habs]

/-- Witness for the amended C3: under a DOM whose evaluation always throws,
the single-XPath rule group's `domInfo` carries the error marker. -/
theorem domInfo_error_markers_amended_witness :
    (enhanceItem domThrows cexItem).domInfo
      = some (((jsSetDedup ["x1"]).map (getElementInfo domThrows)).filterMap id) ∧
    DomInfoEntry.error ("SyntaxError")
      ∈ ((jsSetDedup ["x1"]).map (getElementInfo domThrows)).filterMap id :=
  ⟨(domInfo_error_markers_amended domThrows cexItem (["x1"]) rfl).1,
   (domInfo_error_markers_amended domThrows cexItem (["x1"]) rfl).2.1
     ("x1") (by decide) ("SyntaxError") rfl⟩

theorem processLoop_all_fail {ρ : Type} (analyze : Nat → Except String ρ)
    (M : Nat) (url : String) (errs : Nat → String)
    (hfail : ∀ i, i < M → analyze i = Except.error (errs i)) :
    ∀ rem a, a + rem = M → 0 < rem →
      processLoop analyze M url rem a
        = some { url := url, success := false, report := none
               , error := some (errs (M - 1)), attempts := M } := by
  intro rem
  induction rem with
  | zero =>
    intro a hsum h0
    omega
  | succ rem ih =>
    intro a hsum h0
    simp only [processLoop]
    rw [hfail a (by omega)]
    dsimp only
    by_cases hM : a + 1 ≥ M
    · rw [if_pos hM]
      have e1 : errs a = errs (M - 1) := by
        have : a = M - 1 := by omega
        rw [this]
      have e2 : a + 1 = M := by omega
      rw [e1, e2]
    · rw [if_neg hM]
      exact ih (a + 1) (by omega) (by omega)

/-- Claim C8: with `maxRetries ≥ 1`, a URL whose analysis throws on every
attempt yields the record `success = false` carrying the last attempt's error
message and `attempts = maxRetries`; the batch loop still produces one record
per URL, each independently of the others; and the batch summary's
`successful` and `failed` fields are exactly the numbers of per-URL records
with `success = true` and `success = false` (and they always add up to the
number of records). -/
theorem batch_retry_failure_isolation :
    (∀ (ρ : Type) (analyze : String → Nat → Except String ρ) (maxRetries : Nat)
        (u : String) (errs : Nat → String), 1 ≤ maxRetries →
      (∀ i, i < maxRetries → analyze u i = Except.error (errs i)) →
      processUrlWithRetry (analyze u) maxRetries u
        = some { url := u, success := false, report := none
               , error := some (errs (maxRetries - 1)), attempts := maxRetries }) ∧
    (∀ (ρ : Type) (analyze : String → Nat → Except String ρ) (maxRetries : Nat)
        (urls : List String),
      analyzeBatchResults analyze maxRetries urls
        = urls.map (fun v => processUrlWithRetry (analyze v) maxRetries v) ∧
      (analyzeBatchResults analyze maxRetries urls).length = urls.length) ∧
    (∀ (ρ : Type) (results : List (UrlResult ρ)) (n : Nat),
      (createBatchSummary results n).successful
        = results.countP (fun r => r.success) ∧
      (createBatchSummary results n).failed
        = results.countP (fun r => !r.success) ∧
      (createBatchSummary results n).successful
          + (createBatchSummary results n).failed
        = results.length) := by
  refine ⟨?_, ?_, ?_⟩
  · intro ρ analyze maxRetries u errs hmr hfail
    exact processLoop_all_fail (analyze u) maxRetries u errs hfail maxRetries 0
      (by omega) (by omega)
  · intro ρ analyze maxRetries urls
    exact ⟨rfl, by simp [analyzeBatchResults]⟩
  · intro ρ results n
    refine ⟨?_, ?_, ?_⟩
    · simp [createBatchSummary, List.countP_eq_length_filter]
    · simp [createBatchSummary, List.countP_eq_length_filter]
    · simp only [createBatchSummary]
      exact (List.length_eq_length_filter_add
        (fun r : UrlResult ρ => r.success)).symm

/-- Witness for C8: a 3-URL batch in which only URL 2 exhausts its 2 retries
yields per-URL records for all three URLs and a summary with
`successful = 2`, `failed = 1`. -/
theorem batch_retry_failure_isolation_witness :
    ((1 ≤ 2) ∧
      processUrlWithRetry (sampleBatchAnalyze ("u2")) 2 ("u2")
        = some { url := "u2", success := false, report := none
               , error := some ("boom"), attempts := 2 }) ∧
    (analyzeBatchResults sampleBatchAnalyze 2 (["u1", "u2", "u3"])).length = 3 ∧
    createBatchSummary
        ((analyzeBatchResults sampleBatchAnalyze 2 (["u1", "u2", "u3"])).filterMap id) 3
      = { totalUrls := 3, successful := 2, failed := 1
        , rows := [ { url := "u1", success := true, attempts := 1, error := none }
                  , { url := "u2", success := false, attempts := 2, error := some ("boom") }
                  , { url := "u3", success := true, attempts := 1, error := none } ] } :=
  ⟨⟨by decide,
    batch_retry_failure_isolation.1 Nat sampleBatchAnalyze 2 ("u2") (fun _ => "boom")
      (by decide) (fun i _ => rfl)⟩,
   by decide, by decide⟩

/-- Claim C10: the enhancer's computation factors through the
`JSON.parse(JSON.stringify(…))` deep copy of its input, and that deep copy
reproduces the input structure exactly; consequently (in this embedding's
value semantics, where data is immutable by construction) the caller's raw
results value is not modified by enhancement, whose output is a function of
the copy alone. -/
theorem enhance_deep_copies_input (dom : String → DomLookup) (r : WaveResults) :
    deepCopyResults r = r ∧
    enhanceResultsWithDOMInfo dom r = enhanceCore dom (deepCopyResults r) ∧
    enhanceResultsWithDOMInfo dom r = enhanceCore dom r :=
  ⟨deepCopyResults_eq r, rfl, congrArg (enhanceCore dom) (deepCopyResults_eq r)⟩
